import Mathlib

/-!
Shallow embedding of the marker-clustering routine in
src/components/common/MapWithClustering.tsx (the function createClusters).

JavaScript numbers are modelled as exact rationals (Rat).  The screen
distance test of the source, locationPoint.distanceTo(otherPoint) <=
clusterDistance, compares a Euclidean distance (a square root) with the
threshold; over the reals, sqrt e <= d holds iff 0 <= d and e <= d * d,
so distLe compares the squared distance with the squared threshold and
additionally requires the threshold to be non-negative.  The mutable
Set of processed ids and the mutable arrays of the source become
accumulators threaded through structural recursion over the input list,
visiting it in input order exactly as the two nested forEach loops do.
The L.Map handle becomes an optional projection function from geographic
coordinates to screen points; the falsy-map early return of the source
is the none branch.  The union return type (ClusterGroup | Location)[]
becomes a list of a sum type, with the early returns injecting every
location on the right.
-/

namespace TravelGuide

/-- Geographic coordinates, as in the Location type of the source. -/
structure Coordinates where
  latitude : Rat
  longitude : Rat
deriving DecidableEq

/-- A location: the clustering code reads only the id and the coordinates. -/
structure Location where
  id : String
  coordinates : Coordinates
deriving DecidableEq

/-- A point in container-pixel space, the result of latLngToContainerPoint. -/
structure ScreenPoint where
  x : Rat
  y : Rat
deriving DecidableEq

/-- Squared Euclidean distance between two screen points. -/
def dist2 (p q : ScreenPoint) : Rat :=
  (p.x - q.x) * (p.x - q.x) + (p.y - q.y) * (p.y - q.y)

/-- The comparison distanceTo(p, q) <= d of the source, written without a
square root: sqrt (dist2 p q) <= d iff 0 <= d and dist2 p q <= d * d. -/
def distLe (p q : ScreenPoint) (d : Rat) : Bool :=
  decide (0 ≤ d) && decide (dist2 p q ≤ d * d)

/-- Minimum of a list of rationals (used for the LatLngBounds south-west
corner; the source only applies it to non-empty member lists). -/
def minOf : List Rat → Rat
  | [] => 0
  | x :: xs => xs.foldl min x

/-- Maximum of a list of rationals (LatLngBounds north-east corner). -/
def maxOf : List Rat → Rat
  | [] => 0
  | x :: xs => xs.foldl max x

/-- The ClusterGroup record of the source: bounds is an L.LatLngBounds,
kept here as its south-west and north-east corners (latitude, longitude);
center is bounds.getCenter(), the midpoint of the two corners. -/
structure ClusterGroup where
  center : Rat × Rat
  locations : List Location
  boundsSW : Rat × Rat
  boundsNE : Rat × Rat
deriving DecidableEq

/-- Builds the cluster object pushed by the source: bounds from the member
coordinates, center = bounds.getCenter(). -/
def mkClusterGroup (members : List Location) : ClusterGroup :=
  let lats := members.map fun l => l.coordinates.latitude
  let lngs := members.map fun l => l.coordinates.longitude
  { center := ((minOf lats + maxOf lats) / 2, (minOf lngs + maxOf lngs) / 2)
    locations := members
    boundsSW := (minOf lats, minOf lngs)
    boundsNE := (maxOf lats, maxOf lngs) }

/-- The inner forEach of createClusters: scan the whole input list, and move
every not-yet-processed location within distLe of the seed screen point into
the candidate group, marking it processed. -/
def scanNearby (sp : ScreenPoint) (proj : Coordinates → ScreenPoint) (d : Rat) :
    List Location → List Location × List String → List Location × List String
  | [], acc => acc
  | other :: rest, (group, processed) =>
    if other.id ∈ processed then
      scanNearby sp proj d rest (group, processed)
    else if distLe sp (proj other.coordinates) d then
      scanNearby sp proj d rest (group ++ [other], other.id :: processed)
    else
      scanNearby sp proj d rest (group, processed)

/-- The outer forEach of createClusters: each unprocessed location becomes a
seed (and is marked processed), the whole input list is scanned for nearby
locations, and a ClusterGroup is pushed only when the candidate group has
more than one member. -/
def clusterPass (all : List Location) (proj : Coordinates → ScreenPoint) (d : Rat) :
    List Location → List ClusterGroup × List String → List ClusterGroup × List String
  | [], acc => acc
  | location :: rest, (clusters, processed) =>
    if location.id ∈ processed then
      clusterPass all proj d rest (clusters, processed)
    else
      let r := scanNearby (proj location.coordinates) proj d all
        ([location], location.id :: processed)
      if 1 < r.1.length then
        clusterPass all proj d rest (clusters ++ [mkClusterGroup r.1], r.2)
      else
        clusterPass all proj d rest (clusters, r.2)

/-- The function createClusters of the source.  A missing map handle or an
empty input returns the input list unchanged; otherwise the result is the
pushed clusters followed by every input location whose id is not in the
processed set (the final forEach of the source). -/
def createClusters (locations : List Location) (map : Option (Coordinates → ScreenPoint))
    (clusterDistance : Rat) : List (ClusterGroup ⊕ Location) :=
  match map with
  | none => locations.map Sum.inr
  | some proj =>
    if locations.length = 0 then locations.map Sum.inr
    else
      let r := clusterPass locations proj clusterDistance locations ([], [])
      r.1.map Sum.inl ++
        (locations.filter fun l => decide (l.id ∉ r.2)).map Sum.inr

/-- The clusters occurring in a result list, in order. -/
def clustersIn (result : List (ClusterGroup ⊕ Location)) : List ClusterGroup :=
  result.filterMap fun item =>
    match item with
    | Sum.inl g => some g
    | Sum.inr _ => none

/-- The member identifiers of a cluster, in member order. -/
def clusterIds (g : ClusterGroup) : List String := g.locations.map Location.id

/-- A projection sending longitude to screen x and latitude to screen y,
used as a concrete deterministic projection in the scenarios below. -/
def lonlatProj (c : Coordinates) : ScreenPoint := ⟨c.longitude, c.latitude⟩

/-- A projection sending every coordinate to the screen origin. -/
def constProj (_ : Coordinates) : ScreenPoint := ⟨0, 0⟩

/-- Concrete locations for the scenarios. -/
def locC1 : Location := ⟨"a", ⟨0, 0⟩⟩

def locA2 : Location := ⟨"a2", ⟨0, 0⟩⟩

def locB2 : Location := ⟨"b2", ⟨0, 1⟩⟩

def locF2 : Location := ⟨"c2", ⟨0, 100⟩⟩

def locU3 : Location := ⟨"u3", ⟨0, 0⟩⟩

def locV3 : Location := ⟨"v3", ⟨0, 5⟩⟩

def locS5 : Location := ⟨"s5", ⟨0, 0⟩⟩

def locP5 : Location := ⟨"p5", ⟨0, 10⟩⟩

def locQ5 : Location := ⟨"q5", ⟨0, 19⟩⟩

def locN4 : Location := ⟨"n4", ⟨0, 0⟩⟩

def locW4 : Location := ⟨"w4", ⟨3, 0⟩⟩

def locS6 : Location := ⟨"s6", ⟨0, 0⟩⟩

def locP6 : Location := ⟨"p6", ⟨4, 3⟩⟩

def locQ6 : Location := ⟨"q6", ⟨5, 3⟩⟩

def locA7 : Location := ⟨"a7", ⟨10, 10⟩⟩

def locB7 : Location := ⟨"b7", ⟨20, 30⟩⟩

def locA9 : Location := ⟨"a9", ⟨0, 0⟩⟩

def locB9 : Location := ⟨"b9", ⟨0, 1⟩⟩

/-- Membership in the processed set never shrinks during the inner scan. -/
theorem scanNearby_processed_mono (sp : ScreenPoint) (proj : Coordinates → ScreenPoint)
    (d : Rat) (locs : List Location) :
    ∀ group processed s, s ∈ processed →
      s ∈ (scanNearby sp proj d locs (group, processed)).2 := by
  induction locs with
  | nil =>
    intro group processed s hs
    simpa [scanNearby] using hs
  | cons other rest ih =>
    intro group processed s hs
    by_cases h1 : other.id ∈ processed
    · simp only [scanNearby, if_pos h1]
      exact ih group processed s hs
    · by_cases h2 : distLe sp (proj other.coordinates) d = true
      · simp only [scanNearby, if_neg h1, if_pos h2]
        exact ih _ _ s (List.mem_cons_of_mem _ hs)
      · simp only [scanNearby, if_neg h1, if_neg h2]
        exact ih group processed s hs

/-- Invariants of the inner scan: every group member's id is in the final
processed set, the group's id list stays duplicate-free, and every group
member either was already in the group or was unprocessed when the scan
started. -/
theorem scanNearby_invariant (sp : ScreenPoint) (proj : Coordinates → ScreenPoint)
    (d : Rat) (locs : List Location) :
    ∀ group processed, (∀ l ∈ group, l.id ∈ processed) →
      (group.map Location.id).Nodup →
      (∀ l ∈ (scanNearby sp proj d locs (group, processed)).1,
          l.id ∈ (scanNearby sp proj d locs (group, processed)).2) ∧
      ((scanNearby sp proj d locs (group, processed)).1.map Location.id).Nodup ∧
      (∀ l ∈ (scanNearby sp proj d locs (group, processed)).1,
          l ∈ group ∨ l.id ∉ processed) := by
  induction locs with
  | nil =>
    intro group processed hmem hnod
    simp only [scanNearby]
    exact ⟨hmem, hnod, fun l hl => Or.inl hl⟩
  | cons other rest ih =>
    intro group processed hmem hnod
    by_cases h1 : other.id ∈ processed
    · simp only [scanNearby, if_pos h1]
      exact ih group processed hmem hnod
    · by_cases h2 : distLe sp (proj other.coordinates) d = true
      · simp only [scanNearby, if_neg h1, if_pos h2]
        have hmem' : ∀ l ∈ group ++ [other], l.id ∈ other.id :: processed := by
          intro l hl
          rcases List.mem_append.mp hl with h | h
          · exact List.mem_cons_of_mem _ (hmem l h)
          · rw [List.mem_singleton.mp h]
            exact List.mem_cons_self _ _
        have hnod' : ((group ++ [other]).map Location.id).Nodup := by
          rw [List.map_append]
          refine List.Nodup.append hnod (by simp) ?_
          intro s hs hs'
          rcases List.mem_map.mp hs with ⟨l, hl, rfl⟩
          have heq : l.id = other.id := by simpa using hs'
          exact h1 (heq ▸ hmem l hl)
        obtain ⟨ha, hb, hc⟩ := ih _ _ hmem' hnod'
        refine ⟨ha, hb, ?_⟩
        intro l hl
        rcases hc l hl with h | h
        · rcases List.mem_append.mp h with h' | h'
          · exact Or.inl h'
          · rw [List.mem_singleton.mp h']
            exact Or.inr h1
        · exact Or.inr fun hin => h (List.mem_cons_of_mem _ hin)
      · simp only [scanNearby, if_neg h1, if_neg h2]
        exact ih group processed hmem hnod

/-- Membership in the processed set never shrinks during the outer pass. -/
theorem clusterPass_processed_mono (all : List Location) (proj : Coordinates → ScreenPoint)
    (d : Rat) (todo : List Location) :
    ∀ clusters processed s, s ∈ processed →
      s ∈ (clusterPass all proj d todo (clusters, processed)).2 := by
  induction todo with
  | nil =>
    intro cs p s hs
    simpa [clusterPass] using hs
  | cons location rest ih =>
    intro cs p s hs
    by_cases h1 : location.id ∈ p
    · simp only [clusterPass, if_pos h1]
      exact ih cs p s hs
    · have hs' : s ∈ (scanNearby (proj location.coordinates) proj d all
          ([location], location.id :: p)).2 :=
        scanNearby_processed_mono _ _ _ _ _ _ s (List.mem_cons_of_mem _ hs)
      simp only [clusterPass, if_neg h1]
      by_cases h2 : 1 < (scanNearby (proj location.coordinates) proj d all
          ([location], location.id :: p)).1.length
      · simp only [if_pos h2]
        exact ih _ _ s hs'
      · simp only [if_neg h2]
        exact ih _ _ s hs'

/-- After the outer pass, the id of every location of the scanned list is in
the processed set: every location is either skipped because it is already
processed or immediately marked processed when it becomes a seed. -/
theorem clusterPass_all_processed (all : List Location) (proj : Coordinates → ScreenPoint)
    (d : Rat) (todo : List Location) :
    ∀ clusters processed l, l ∈ todo →
      l.id ∈ (clusterPass all proj d todo (clusters, processed)).2 := by
  induction todo with
  | nil =>
    intro cs p l hl
    cases hl
  | cons location rest ih =>
    intro cs p l hl
    rcases List.mem_cons.mp hl with rfl | hl'
    · by_cases h1 : l.id ∈ p
      · simp only [clusterPass, if_pos h1]
        exact clusterPass_processed_mono all proj d rest cs p l.id h1
      · have hsc : l.id ∈ (scanNearby (proj l.coordinates) proj d all
            ([l], l.id :: p)).2 :=
          scanNearby_processed_mono _ _ _ _ _ _ l.id (List.mem_cons_self _ _)
        simp only [clusterPass, if_neg h1]
        by_cases h2 : 1 < (scanNearby (proj l.coordinates) proj d all
            ([l], l.id :: p)).1.length
        · simp only [if_pos h2]
          exact clusterPass_processed_mono all proj d rest _ _ l.id hsc
        · simp only [if_neg h2]
          exact clusterPass_processed_mono all proj d rest _ _ l.id hsc
    · by_cases h1 : location.id ∈ p
      · simp only [clusterPass, if_pos h1]
        exact ih cs p l hl'
      · simp only [clusterPass, if_neg h1]
        by_cases h2 : 1 < (scanNearby (proj location.coordinates) proj d all
            ([location], location.id :: p)).1.length
        · simp only [if_pos h2]
          exact ih _ _ l hl'
        · simp only [if_neg h2]
          exact ih _ _ l hl'

/-- Every cluster produced by the outer pass (beyond those already in the
accumulator) is built by mkClusterGroup from some member list. -/
theorem clusterPass_shape (all : List Location) (proj : Coordinates → ScreenPoint)
    (d : Rat) (todo : List Location) :
    ∀ clusters processed, (∀ g ∈ clusters, ∃ ms, g = mkClusterGroup ms) →
      ∀ g ∈ (clusterPass all proj d todo (clusters, processed)).1,
        ∃ ms, g = mkClusterGroup ms := by
  induction todo with
  | nil =>
    intro cs p h g hg
    simp only [clusterPass] at hg
    exact h g hg
  | cons location rest ih =>
    intro cs p h g
    by_cases h1 : location.id ∈ p
    · simp only [clusterPass, if_pos h1]
      exact ih cs p h g
    · simp only [clusterPass, if_neg h1]
      by_cases h2 : 1 < (scanNearby (proj location.coordinates) proj d all
          ([location], location.id :: p)).1.length
      · simp only [if_pos h2]
        refine ih _ _ ?_ g
        intro g' hg'
        rcases List.mem_append.mp hg' with hg' | hg'
        · exact h g' hg'
        · exact ⟨_, List.mem_singleton.mp hg'⟩
      · simp only [if_neg h2]
        exact ih _ _ h g

/-- A result list of injected locations only contains no cluster. -/
theorem clustersIn_inr (ls : List Location) : clustersIn (ls.map Sum.inr) = [] := by
  induction ls with
  | nil => rfl
  | cons l rest ih => simp [clustersIn, List.filterMap_cons, ih]

/-- The clusters of a result list assembled from injected clusters followed
by injected locations are exactly the injected clusters. -/
theorem clustersIn_append_map (cs : List ClusterGroup) (ls : List Location) :
    clustersIn (cs.map Sum.inl ++ ls.map Sum.inr) = cs := by
  induction cs with
  | nil => simp only [List.map_nil, List.nil_append, clustersIn_inr]
  | cons c rest ih => simpa [clustersIn, List.filterMap_cons] using ih

/-- A negative threshold fails every distance test, since the comparison
requires the threshold to be non-negative. -/
theorem distLe_of_neg (p q : ScreenPoint) (d : Rat) (hd : d < 0) :
    distLe p q d = false := by
  simp [distLe, not_le.mpr hd]

/-- With a negative threshold the inner scan moves nothing. -/
theorem scanNearby_of_neg (sp : ScreenPoint) (proj : Coordinates → ScreenPoint)
    (d : Rat) (hd : d < 0) (locs : List Location) :
    ∀ acc, scanNearby sp proj d locs acc = acc := by
  induction locs with
  | nil =>
    intro acc
    simp [scanNearby]
  | cons other rest ih =>
    intro acc
    obtain ⟨group, processed⟩ := acc
    by_cases h1 : other.id ∈ processed
    · simp only [scanNearby, if_pos h1]
      exact ih _
    · simp only [scanNearby, if_neg h1, distLe_of_neg _ _ _ hd,
        Bool.false_eq_true, if_false]
      exact ih _

/-- With a negative threshold the outer pass creates no cluster. -/
theorem clusterPass_clusters_of_neg (all : List Location) (proj : Coordinates → ScreenPoint)
    (d : Rat) (hd : d < 0) (todo : List Location) :
    ∀ clusters processed,
      (clusterPass all proj d todo (clusters, processed)).1 = clusters := by
  induction todo with
  | nil =>
    intro cs p
    simp [clusterPass]
  | cons location rest ih =>
    intro cs p
    by_cases h1 : location.id ∈ p
    · simp only [clusterPass, if_pos h1]
      exact ih cs p
    · simp only [clusterPass, if_neg h1, scanNearby_of_neg _ _ _ hd,
        List.length_singleton, lt_self_iff_false, if_false]
      exact ih cs _

/-- The member ids of a built cluster are the ids of its member list. -/
theorem clusterIds_mk (ms : List Location) :
    clusterIds (mkClusterGroup ms) = ms.map Location.id := rfl

/-- Joint invariant of the outer pass: the concatenation of all emitted
clusters' member id lists is duplicate-free, and all those ids are in the
processed set. -/
theorem clusterPass_ids_nodup (all : List Location) (proj : Coordinates → ScreenPoint)
    (d : Rat) (todo : List Location) :
    ∀ clusters processed,
      ((clusters.map clusterIds).flatten.Nodup) →
      (∀ g ∈ clusters, ∀ s ∈ clusterIds g, s ∈ processed) →
      (((clusterPass all proj d todo (clusters, processed)).1.map clusterIds).flatten.Nodup ∧
        ∀ g ∈ (clusterPass all proj d todo (clusters, processed)).1,
          ∀ s ∈ clusterIds g, s ∈ (clusterPass all proj d todo (clusters, processed)).2) := by
  induction todo with
  | nil =>
    intro cs p h1 h2
    simp only [clusterPass]
    exact ⟨h1, h2⟩
  | cons location rest ih =>
    intro cs p h1 h2
    by_cases hp : location.id ∈ p
    · simp only [clusterPass, if_pos hp]
      exact ih cs p h1 h2
    · obtain ⟨hi, hn, ho⟩ := scanNearby_invariant (proj location.coordinates) proj d all
        [location] (location.id :: p)
        (by
          intro l hl
          rw [List.mem_singleton.mp hl]
          exact List.mem_cons_self _ _)
        (by simp)
      simp only [clusterPass, if_neg hp]
      by_cases hlen : 1 < (scanNearby (proj location.coordinates) proj d all
          ([location], location.id :: p)).1.length
      · simp only [if_pos hlen]
        refine ih _ _ ?_ ?_
        · have hjoin : ((cs ++ [mkClusterGroup (scanNearby (proj location.coordinates)
              proj d all ([location], location.id :: p)).1]).map clusterIds).flatten
              = (cs.map clusterIds).flatten ++
                ((scanNearby (proj location.coordinates) proj d all
                  ([location], location.id :: p)).1.map Location.id) := by
            simp [clusterIds_mk]
          rw [hjoin]
          refine List.Nodup.append h1 hn ?_
          intro s hs hs'
          have hsp : s ∈ p := by
            rcases List.mem_flatten.mp hs with ⟨ids, hids, hsids⟩
            rcases List.mem_map.mp hids with ⟨g, hg, rfl⟩
            exact h2 g hg s hsids
          rcases List.mem_map.mp hs' with ⟨l, hl, rfl⟩
          rcases ho l hl with h | h
          · exact hp (List.mem_singleton.mp h ▸ hsp)
          · exact h (List.mem_cons_of_mem _ hsp)
        · intro g hg s hsg
          rcases List.mem_append.mp hg with hg' | hg'
          · exact scanNearby_processed_mono _ _ _ _ _ _ s
              (List.mem_cons_of_mem _ (h2 g hg' s hsg))
          · rw [List.mem_singleton.mp hg', clusterIds_mk] at hsg
            rcases List.mem_map.mp hsg with ⟨l, hl, rfl⟩
            exact hi l hl
      · simp only [if_neg hlen]
        refine ih _ _ h1 ?_
        intro g hg s hsg
        exact scanNearby_processed_mono _ _ _ _ _ _ s
          (List.mem_cons_of_mem _ (h2 g hg s hsg))

/-- Claim C4: the spec asserts a fail-fast InvalidThreshold error on
negative thresholds.  The code has no validation at all: the call proceeds
normally, no distance test can succeed against a negative threshold (a
Euclidean distance is never below a negative number), every candidate
group stays a singleton, and — singletons being dropped — the call returns
the empty list, an ordinary non-error result. -/
theorem createClusters_negative_threshold_returns (locations : List Location)
    (proj : Coordinates → ScreenPoint) (d : Rat) (hd : d < 0) :
    createClusters locations (some proj) d = [] := by
  by_cases hlen : locations.length = 0
  · rw [List.length_eq_zero] at hlen
    subst hlen
    rfl
  · simp only [createClusters, if_neg hlen,
      clusterPass_clusters_of_neg locations proj d hd locations, List.map_nil,
      List.nil_append]
    rw [List.map_eq_nil_iff, List.filter_eq_nil_iff]
    intro l hl
    simp only [decide_eq_true_eq, not_not]
    exact clusterPass_all_processed locations proj d locations [] [] l hl

/-- Counterexample to claim C4 as stated: createClusters with a negative
threshold does not fail; at this concrete input it returns the empty list,
an ordinary (non-error) result, and the source function contains no error
channel at all. -/
theorem createClusters_negative_threshold_counterexample :
    createClusters [locN4] (some lonlatProj) (-2) = [] := by decide

/-- Witness for the amended C4 at a concrete input. -/
theorem createClusters_negative_threshold_witness :
    createClusters [locW4] (some lonlatProj) (-1) = [] :=
  createClusters_negative_threshold_returns [locW4] lonlatProj (-1) (by norm_num)

/-- Claim C6: the threshold comparison against the seed is inclusive.  For
any two-point input with distinct ids and a non-negative threshold d, if
the squared screen distance is at most d * d (Euclidean distance at most d,
in particular exactly d) the second point joins the seed's group and one
cluster of both points is emitted; if it is strictly greater the point does
not join and no cluster is emitted. -/
theorem createClusters_threshold_inclusive (s p : Location)
    (proj : Coordinates → ScreenPoint) (d : Rat)
    (hid : s.id ≠ p.id) (hd : 0 ≤ d) :
    (dist2 (proj s.coordinates) (proj p.coordinates) ≤ d * d →
      createClusters [s, p] (some proj) d = [Sum.inl (mkClusterGroup [s, p])]) ∧
    (d * d < dist2 (proj s.coordinates) (proj p.coordinates) →
      clustersIn (createClusters [s, p] (some proj) d) = []) := by
  have hid' : p.id ≠ s.id := Ne.symm hid
  constructor
  · intro h
    have hdist : distLe (proj s.coordinates) (proj p.coordinates) d = true := by
      simp [distLe, hd, h]
    simp +decide [createClusters, clusterPass, scanNearby, hdist, hid, hid']
  · intro h
    have hdist : distLe (proj s.coordinates) (proj p.coordinates) d = false := by
      simp [distLe, not_le.mpr h]
    simp +decide [createClusters, clusterPass, scanNearby, hdist, hid, hid',
      clustersIn_append_map, clustersIn_inr]

/-- Witness for C6: locS6 projects to (0, 0); locP6 projects to (3, 4), at
Euclidean distance exactly 5 from the seed, and joins with threshold 5;
locQ6 projects to (3, 5), at squared distance 34 > 25, and does not. -/
theorem createClusters_threshold_inclusive_witness :
    createClusters [locS6, locP6] (some lonlatProj) 5 =
      [Sum.inl (mkClusterGroup [locS6, locP6])] ∧
    clustersIn (createClusters [locS6, locQ6] (some lonlatProj) 5) = [] := by
  constructor
  · exact (createClusters_threshold_inclusive locS6 locP6 lonlatProj 5 (by decide)
      (by norm_num)).1 (by norm_num [dist2, lonlatProj, locS6, locP6])
  · exact (createClusters_threshold_inclusive locS6 locQ6 lonlatProj 5 (by decide)
      (by norm_num)).2 (by norm_num [dist2, lonlatProj, locS6, locQ6])

/-- Claim C7: every cluster in the output of createClusters has as its
center the midpoint of its members' geographic bounding box: the mean of
the minimum and maximum member latitude, and likewise for longitude —
bounds.getCenter() in the source, not the arithmetic mean of members. -/
theorem createClusters_center_is_bbox_midpoint (locations : List Location)
    (proj : Coordinates → ScreenPoint) (d : Rat) (g : ClusterGroup)
    (hg : g ∈ clustersIn (createClusters locations (some proj) d)) :
    g.center =
      ((minOf (g.locations.map fun l => l.coordinates.latitude) +
          maxOf (g.locations.map fun l => l.coordinates.latitude)) / 2,
        (minOf (g.locations.map fun l => l.coordinates.longitude) +
          maxOf (g.locations.map fun l => l.coordinates.longitude)) / 2) := by
  by_cases hlen : locations.length = 0
  · simp only [createClusters, if_pos hlen, clustersIn_inr] at hg
    exact absurd hg (List.not_mem_nil _)
  · simp only [createClusters, if_neg hlen, clustersIn_append_map] at hg
    obtain ⟨ms, rfl⟩ := clusterPass_shape locations proj d locations [] [] (by simp) g hg
    rfl

/-- Witness for C7: the cluster of the two locations at (10, 10) and
(20, 30) (colocated on screen under the constant projection) has centroid
(15, 20), the bounding-box midpoint. -/
theorem createClusters_center_is_bbox_midpoint_witness :
    (mkClusterGroup [locA7, locB7]).center = ((15 : Rat), (20 : Rat)) := by
  have hg : mkClusterGroup [locA7, locB7] ∈
      clustersIn (createClusters [locA7, locB7] (some constProj) 1) := by
    norm_num +decide [createClusters, clusterPass, scanNearby, distLe, dist2,
      constProj, locA7, locB7, clustersIn, List.filterMap_cons]
  rw [createClusters_center_is_bbox_midpoint [locA7, locB7] constProj 1
    (mkClusterGroup [locA7, locB7]) hg]
  norm_num [mkClusterGroup, minOf, maxOf, locA7, locB7, min_def, max_def]

/-- Claim C9: for inputs with pairwise-distinct identifiers, the emitted
clusters are pairwise disjoint and duplicate-free: the concatenation of all
clusters' member id lists contains no id twice (so no id is in two
clusters, and none twice in one cluster), guaranteed by the processed set. -/
theorem createClusters_clusters_disjoint (locations : List Location)
    (proj : Coordinates → ScreenPoint) (d : Rat)
    (hnod : (locations.map Location.id).Nodup) :
    ((clustersIn (createClusters locations (some proj) d)).map clusterIds).flatten.Nodup := by
  by_cases hlen : locations.length = 0
  · simp only [createClusters, if_pos hlen, clustersIn_inr]
    simp
  · simp only [createClusters, if_neg hlen, clustersIn_append_map]
    exact (clusterPass_ids_nodup locations proj d locations [] [] (by simp) (by simp)).1

/-- Witness for C9 at a concrete input producing one cluster of two
locations: the joined id list is duplicate-free. -/
theorem createClusters_clusters_disjoint_witness :
    ((clustersIn (createClusters [locA9, locB9] (some lonlatProj) 5)).map
      clusterIds).flatten.Nodup :=
  createClusters_clusters_disjoint [locA9, locB9] lonlatProj 5 (by decide)

/-- Claim C1: the spec asserts that the output of createClusters partitions
the input (union of cluster members and singletons = input).  The code
violates this: a location that seeds a size-1 candidate group is marked
processed, so the final loop (which only re-adds unprocessed ids) never
emits it, and the point vanishes from the result.  Here a single input
point yields the empty result instead of one singleton. -/
theorem createClusters_partition_violated :
    createClusters [locC1] (some lonlatProj) 50 = [] := by decide

/-- Claim C2: the spec asserts that every emitted Cluster has at least two
members (true in the code: clusters are pushed only when the group length
exceeds 1) and that a size-1 candidate group is emitted as a singleton
point.  The second half fails: with threshold 10, locations a2 and b2
cluster, and the far location c2 seeds a size-1 group that is dropped
entirely — the result contains only the cluster, no singleton c2. -/
theorem createClusters_singleton_group_omitted :
    createClusters [locA2, locB2, locF2] (some lonlatProj) 10 =
      [Sum.inl (mkClusterGroup [locA2, locB2])] := by
  norm_num +decide [createClusters, clusterPass, scanNearby, distLe, dist2,
    lonlatProj, locA2, locB2, locF2]

/-- Claim C3: the spec asserts that threshold 0 on non-colocated points
returns one singleton per input point.  In the code every point then seeds
a size-1 group and is dropped: two points at distinct screen positions with
threshold 0 yield the empty result, not two singletons. -/
theorem createClusters_zero_threshold_empty :
    createClusters [locU3, locV3] (some lonlatProj) 0 = [] := by
  norm_num +decide [createClusters, clusterPass, scanNearby, distLe, dist2,
    lonlatProj, locU3, locV3]

/-- Claim C5: seed-only grouping.  With seed s5 at screen (0,0), p5 at
(10,0) and q5 at (19,0) and threshold 10, p5 joins the seed's group
(distance exactly 10) and q5 does not (distance 19 from the seed), even
though q5 is 9 pixels from the member p5: the only emitted cluster has
member list [s5, p5], and q5 is in no cluster. -/
theorem createClusters_seed_only_grouping :
    createClusters [locS5, locP5, locQ5] (some lonlatProj) 10 =
      [Sum.inl (mkClusterGroup [locS5, locP5])] ∧
    dist2 (lonlatProj locP5.coordinates) (lonlatProj locQ5.coordinates) = 81 ∧
    dist2 (lonlatProj locS5.coordinates) (lonlatProj locQ5.coordinates) = 361 := by
  refine ⟨?_, ?_, ?_⟩ <;>
    norm_num +decide [createClusters, clusterPass, scanNearby, distLe, dist2,
      lonlatProj, locS5, locP5, locQ5]

/-- Claim C8: createClusters is a pure function of its three arguments;
two calls with equal inputs return equal results (determinism).  In this
embedding the absence of external state and of input mutation is inherent:
the function reads nothing but its arguments and returns a fresh list. -/
theorem createClusters_deterministic (l1 l2 : List Location)
    (m1 m2 : Option (Coordinates → ScreenPoint)) (t1 t2 : Rat)
    (hl : l1 = l2) (hm : m1 = m2) (ht : t1 = t2) :
    createClusters l1 m1 t1 = createClusters l2 m2 t2 := by
  subst hl; subst hm; subst ht; rfl

/-- Witness for C8 at a concrete input. -/
theorem createClusters_deterministic_witness :
    createClusters [locC1] (some lonlatProj) 2 = createClusters [locC1] (some lonlatProj) 2 :=
  createClusters_deterministic [locC1] [locC1] (some lonlatProj) (some lonlatProj) 2 2
    rfl rfl rfl

/-- Claim C10: a missing map handle returns the input list unchanged (as
plain locations, no projection is ever applied in that branch), and the
empty input returns the empty result for every map and threshold. -/
theorem createClusters_null_map_or_empty (locations : List Location)
    (map : Option (Coordinates → ScreenPoint)) (d : Rat) :
    createClusters locations none d = locations.map Sum.inr ∧
    createClusters [] map d = [] := by
  refine ⟨rfl, ?_⟩
  cases map <;> rfl

end TravelGuide
